import Mathlib

/-!
Shallow embedding of the `payfazz/secureenv` Go package (three revisions)
together with the Go standard-library routines it calls
(`strconv.ParseBool`, `strconv.ParseInt`, `strconv.ParseUint`,
`os.LookupEnv`, `os.Unsetenv`).

The process environment table is modelled as an association list from
keys to raw string values.  Each accessor is modelled as a pure function
that takes the environment as an extra argument and returns it (possibly
shrunk by one entry) as an extra result; Go's `defer os.Unsetenv(key)`
becomes the fact that every exit path of the present-key branch returns
the environment with the key removed.

Revisions, following the repository history:
  * `V1` — first revision (`src/unnamed/part_000`): only `Get(key, def)`.
  * `V2` — middle revision (`src/unnamed/part_001`): `Get*` fetchers plus
    assign-style wrappers built on them.
  * `V3` — final revision (`src/secureenv.go`): assign-style accessors only.
-/

set_option autoImplicit false

universe u

/-- The process environment table: an association list from variable
names to raw string values (`os` package view; keys are unique in a real
process environment, but nothing below needs that). -/
abbrev Env := List (String × String)

/-- `os.LookupEnv`: first value stored under `key`, if any. -/
def lookupEnv : Env → String → Option String
  | [], _ => none
  | (k, v) :: rest, key => if k = key then some v else lookupEnv rest key

/-- `os.Unsetenv`: remove every entry stored under `key`. -/
def unsetenv : Env → String → Env
  | [], _ => []
  | (k, v) :: rest, key =>
      if k = key then unsetenv rest key else (k, v) :: unsetenv rest key

/-- Error kind carried by `strconv.NumError` (`strconv.ErrSyntax`,
`strconv.ErrRange`) plus the two argument errors `strconv` can build
(`baseError`, `bitSizeError`).  `errSyn` is `ErrSyntax`, `errRange` is
`ErrRange`. -/
inductive NumErrorKind where
  | errSyn
  | errRange
  | errBadBase
  | errBadBitSize
  deriving DecidableEq, Repr

/-- `strconv.NumError`: the function name, the offending input string and
the error kind.  This is the only error type the package ever returns. -/
structure ParseError where
  func : String
  num : String
  kind : NumErrorKind
  deriving DecidableEq, Repr

def syntaxError (fn s : String) : ParseError := ⟨fn, s, NumErrorKind.errSyn⟩

def rangeError (fn s : String) : ParseError := ⟨fn, s, NumErrorKind.errRange⟩

def baseError (fn s : String) : ParseError := ⟨fn, s, NumErrorKind.errBadBase⟩

def bitSizeError (fn s : String) : ParseError := ⟨fn, s, NumErrorKind.errBadBitSize⟩

/-- `strconv.ParseBool`: accepts exactly the twelve tokens of Go's
switch statement; anything else is a syntax error (with result `false`,
as in Go). -/
def parseBool (str : String) : Bool × Option ParseError :=
  if str = "1" ∨ str = "t" ∨ str = "T" ∨ str = "true" ∨ str = "TRUE" ∨ str = "True" then
    (true, none)
  else if str = "0" ∨ str = "f" ∨ str = "F" ∨ str = "false" ∨ str = "FALSE" ∨ str = "False" then
    (false, none)
  else
    (false, some (syntaxError "ParseBool" str))

/-- `strconv.lower`: force the ASCII case bit (`c | ('x' - 'X')`). -/
def lower (c : Char) : Char := Char.ofNat (c.toNat ||| 32)

/-- `strconv.IntSize`: bit width of Go's native `int`/`uint`; 64 on the
platform this repository is built for (amd64/arm64). -/
def IntSize : Nat := 64

/-- `math.MaxUint64`. -/
def maxUint64 : Nat := 2 ^ 64 - 1

/-- Width of Go `int` on the build platform: `unsafe.Sizeof(int(0)) * 8`
(the `intsize` package variable of `secureenv`). -/
def intsize : Nat := 64

/-- Width of Go `uint` on the build platform: `unsafe.Sizeof(uint(0)) * 8`
(the `uintsize` package variable of `secureenv`). -/
def uintsize : Nat := 64

/-- Digit classification of the loop body of `strconv.ParseUint`:
`'0'..'9'` map to 0..9, ASCII letters map (case-insensitively) to 10..35,
everything else is not a digit. -/
def digitVal (c : Char) : Option Nat :=
  if '0' ≤ c ∧ c ≤ '9' then some (c.toNat - '0'.toNat)
  else if 'a' ≤ lower c ∧ lower c ≤ 'z' then some ((lower c).toNat - 'a'.toNat + 10)
  else none

/-- Scanning loop of `strconv.underscoreOK`: `saw` tracks the class of the
last character (`'^'` start, `'0'` digit or base prefix, `'_'` underscore,
`'!'` anything else); `hex` tells whether letter digits a..f count. -/
def underscoreOKRun (hex : Bool) : Char → List Char → Bool
  | saw, [] => saw ≠ '_'
  | saw, c :: cs =>
      if ('0' ≤ c ∧ c ≤ '9') ∨ (hex ∧ 'a' ≤ lower c ∧ lower c ≤ 'f') then
        underscoreOKRun hex '0' cs
      else if c = '_' then
        if saw ≠ '0' then false else underscoreOKRun hex '_' cs
      else if saw = '_' then false
      else underscoreOKRun hex '!' cs

/-- `strconv.underscoreOK`: underscores may appear only between digits, or
between a base prefix and a digit. -/
def underscoreOK (s : List Char) : Bool :=
  let s1 := match s with
    | c :: cs => if c = '-' ∨ c = '+' then cs else s
    | [] => s
  match s1 with
  | c0 :: c1 :: rest =>
      if c0 = '0' ∧ (lower c1 = 'b' ∨ lower c1 = 'o' ∨ lower c1 = 'x') then
        underscoreOKRun (lower c1 = 'x') '0' rest
      else underscoreOKRun false '^' s1
  | _ => underscoreOKRun false '^' s1

/-- Accumulation loop of `strconv.ParseUint` over the (prefix-stripped)
characters.  Returns the accumulated value, the error of an early return
if any, and the `underscores` flag.  In Go the overflow guards read
`n >= cutoff` (so `n*base` would exceed `MaxUint64`) and `n1 < n || n1 > maxVal`
(wrap-around or width overflow); over `Nat` no wrap occurs and the second
guard is exactly `maxVal < n * base + d`. -/
def parseUintLoop (base : Nat) (base0 : Bool) (cutoff maxVal : Nat) (s0 : String) :
    List Char → Bool → Nat → Nat × Option ParseError × Bool
  | [], underscores, n => (n, none, underscores)
  | c :: cs, underscores, n =>
      if c = '_' ∧ base0 then
        parseUintLoop base base0 cutoff maxVal s0 cs true n
      else
        match digitVal c with
        | none => (0, some (syntaxError "ParseUint" s0), underscores)
        | some d =>
            if base ≤ d then (0, some (syntaxError "ParseUint" s0), underscores)
            else if cutoff ≤ n then (maxVal, some (rangeError "ParseUint" s0), underscores)
            else if maxVal < n * base + d then
              (maxVal, some (rangeError "ParseUint" s0), underscores)
            else parseUintLoop base base0 cutoff maxVal s0 cs underscores (n * base + d)

/-- Tail of `strconv.ParseUint` once the base is fixed and the prefix is
stripped: bit-size validation, cutoff computation, digit loop, and the
final underscore well-formedness check. -/
def parseUintWithBase (s : List Char) (s0 : String) (base : Nat) (base0 : Bool)
    (bitSize : Nat) : Nat × Option ParseError :=
  if bitSize ≠ 0 ∧ 64 < bitSize then (0, some (bitSizeError "ParseUint" s0))
  else
    let bs := if bitSize = 0 then IntSize else bitSize
    let cutoff := maxUint64 / base + 1
    let maxVal := 2 ^ bs - 1
    match parseUintLoop base base0 cutoff maxVal s0 s false 0 with
    | (v, some e, _) => (v, some e)
    | (n, none, underscores) =>
        if underscores ∧ ¬ underscoreOK s0.data then (0, some (syntaxError "ParseUint" s0))
        else (n, none)

/-- `strconv.ParseUint` over an explicit character list (`s0` is the
string used in error messages): empty check, base validation, and
base-0 radix-prefix detection (`0x`/`0o`/`0b` need at least one digit
after the prefix — Go's `len(s) >= 3` — and a bare leading `0` selects
legacy octal). -/
def parseUintCore (s : List Char) (s0 : String) (base bitSize : Nat) :
    Nat × Option ParseError :=
  if s = [] then (0, some (syntaxError "ParseUint" s0))
  else if 2 ≤ base ∧ base ≤ 36 then
    parseUintWithBase s s0 base false bitSize
  else if base = 0 then
    match s with
    | [] => (0, some (syntaxError "ParseUint" s0))
    | c0 :: rest =>
        if c0 = '0' then
          match rest with
          | c1 :: c2 :: rest2 =>
              if lower c1 = 'b' then parseUintWithBase (c2 :: rest2) s0 2 true bitSize
              else if lower c1 = 'o' then parseUintWithBase (c2 :: rest2) s0 8 true bitSize
              else if lower c1 = 'x' then parseUintWithBase (c2 :: rest2) s0 16 true bitSize
              else parseUintWithBase rest s0 8 true bitSize
          | _ => parseUintWithBase rest s0 8 true bitSize
        else parseUintWithBase s s0 10 true bitSize
  else (0, some (baseError "ParseUint" s0))

/-- `strconv.ParseUint` on a string. -/
def parseUint (s : String) (base bitSize : Nat) : Nat × Option ParseError :=
  parseUintCore s.data s base bitSize

/-- Sign pick-off of `strconv.ParseInt`. -/
def stripSign : List Char → Bool × List Char
  | [] => (false, [])
  | c :: cs =>
      if c = '+' then (false, cs)
      else if c = '-' then (true, cs)
      else (false, c :: cs)

/-- Final range check of `strconv.ParseInt` against
`cutoff = 1 << (bitSize-1)`; on overflow the saturated boundary value is
returned together with the range error, exactly as in Go. -/
def parseIntFinish (neg : Bool) (un : Nat) (bitSize : Nat) (s0 : String) :
    Int × Option ParseError :=
  let bs := if bitSize = 0 then IntSize else bitSize
  let cutoff := 2 ^ (bs - 1)
  if ¬ neg ∧ cutoff ≤ un then ((cutoff : Int) - 1, some (rangeError "ParseInt" s0))
  else if neg ∧ cutoff < un then (-(cutoff : Int), some (rangeError "ParseInt" s0))
  else ((if neg then -(un : Int) else (un : Int)), none)

/-- `strconv.ParseInt`: empty check, sign pick-off, `ParseUint` on the
rest, error rewriting for non-range errors (Go rewrites `Func` and `Num`
in place and returns 0), and the signed range check.  A range error from
`ParseUint` falls through to the range check with the saturated unsigned
value, as in Go. -/
def parseInt (s : String) (base bitSize : Nat) : Int × Option ParseError :=
  if s.data = [] then (0, some (syntaxError "ParseInt" s))
  else
    let (neg, sRest) := stripSign s.data
    let pr := parseUintCore sRest (String.mk sRest) base bitSize
    match pr.2 with
    | some e =>
        if e.kind = NumErrorKind.errRange then parseIntFinish neg pr.1 bitSize s
        else (0, some (ParseError.mk "ParseInt" s e.kind))
    | none => parseIntFinish neg pr.1 bitSize s

/-- Shape of a `Get*` fetcher of the middle revision:
`key ↦ (value, present, error, new environment)`. -/
abbrev StrGetTy := String → Env → String × Bool × Env

abbrev BoolGetTy := String → Env → Bool × Bool × Option ParseError × Env

abbrev IntGetTy := String → Env → Int × Bool × Option ParseError × Env

abbrev NatGetTy := String → Env → Nat × Bool × Option ParseError × Env

/-- Shape of an assign-style accessor:
`output, key ↦ (new output, error, new environment)`. -/
abbrev StrAssignTy := String → String → Env → String × Env

abbrev BoolAssignTy := Bool → String → Env → Bool × Option ParseError × Env

abbrev IntAssignTy := Int → String → Env → Int × Option ParseError × Env

abbrev NatAssignTy := Nat → String → Env → Nat × Option ParseError × Env

/-- Shared skeleton of every `Get*` function of the middle revision
(`src/unnamed/part_001`, e.g. `GetBool`, `GetInt64`):
look the key up; if absent return the zero value, `ok = false` and no
error without touching the environment; if present, `defer os.Unsetenv`
(so the key is removed on every exit path) and return the parse result,
`ok = true`, and the parse error if any. -/
def getGo {α : Type u} (zero : α) (parse : String → α × Option ParseError)
    (key : String) (env : Env) : α × Bool × Option ParseError × Env :=
  match lookupEnv env key with
  | none => (zero, false, none, env)
  | some v =>
      let (val, err) := parse v
      (val, true, err, unsetenv env key)

/-- Shared skeleton of every error-returning assign-style accessor of the
final revision (`src/secureenv.go`, e.g. `Bool`, `Int64`): look the key
up; if absent return `nil` without touching the output; if present,
`defer os.Unsetenv`, parse, and either return the parse error (output
untouched) or write the parsed value and return `nil`. -/
def assignGo {α : Type u} (parse : String → α × Option ParseError)
    (output : α) (key : String) (env : Env) : α × Option ParseError × Env :=
  match lookupEnv env key with
  | none => (output, none, env)
  | some v =>
      let (val, err) := parse v
      match err with
      | some e => (output, some e, unsetenv env key)
      | none => (val, none, unsetenv env key)

/-- Shared skeleton of every error-returning assign-style accessor of the
middle revision (`src/unnamed/part_001`, e.g. `Bool`, `Int64`): call the
corresponding `Get*` fetcher; on error, return it (output untouched);
otherwise write the fetched value exactly when `ok` is true. -/
def assignVia {α : Type u} (get : String → Env → α × Bool × Option ParseError × Env)
    (output : α) (key : String) (env : Env) : α × Option ParseError × Env :=
  let (val, ok, err, env') := get key env
  match err with
  | some e => (output, some e, env')
  | none => (if ok then val else output, none, env')

/-- First revision (`src/unnamed/part_000`), `Get`: return `def` if the
key is absent; otherwise `os.Unsetenv` the key and return the stored
value.  It has no error result. -/
def V1.Get (key dflt : String) (env : Env) : String × Env :=
  match lookupEnv env key with
  | none => (dflt, env)
  | some v => (v, unsetenv env key)

/-- Middle revision `GetString`: like `os.LookupEnv` (so the absent case
returns the empty string and `false`) plus the deferred `os.Unsetenv`. -/
def V2.GetString : StrGetTy := fun key env =>
  match lookupEnv env key with
  | none => ("", false, env)
  | some v => (v, true, unsetenv env key)

/-- Middle revision `String`: `GetString`, writing the value only when
`ok` is true. -/
def V2.String : StrAssignTy := fun output key env =>
  let (val, ok, env') := V2.GetString key env
  (if ok then val else output, env')

/-- Middle revision `GetBool` = the `Get*` skeleton with
`strconv.ParseBool`. -/
def V2.GetBool : BoolGetTy := getGo false parseBool

/-- Middle revision `GetInt64` = the `Get*` skeleton with
`strconv.ParseInt(s, 0, 64)`. -/
def V2.GetInt64 : IntGetTy := getGo 0 (fun s => parseInt s 0 64)

/-- Middle revision `GetInt32` = the `Get*` skeleton with
`strconv.ParseInt(s, 0, 32)` (the final `int32(val)` conversion is the
identity on every value `ParseInt` can return at bit size 32). -/
def V2.GetInt32 : IntGetTy := getGo 0 (fun s => parseInt s 0 32)

/-- Middle revision `GetInt` = the `Get*` skeleton with
`strconv.ParseInt(s, 0, intsize)`. -/
def V2.GetInt : IntGetTy := getGo 0 (fun s => parseInt s 0 intsize)

/-- Middle revision `GetUint64` = the `Get*` skeleton with
`strconv.ParseUint(s, 0, 64)`. -/
def V2.GetUint64 : NatGetTy := getGo 0 (fun s => parseUint s 0 64)

/-- Middle revision `GetUint32` = the `Get*` skeleton with
`strconv.ParseUint(s, 0, 32)`. -/
def V2.GetUint32 : NatGetTy := getGo 0 (fun s => parseUint s 0 32)

/-- Middle revision `GetUint` = the `Get*` skeleton with
`strconv.ParseUint(s, 0, uintsize)`. -/
def V2.GetUint : NatGetTy := getGo 0 (fun s => parseUint s 0 uintsize)

/-- Middle revision `Bool`, built on `GetBool`. -/
def V2.Bool : BoolAssignTy := assignVia V2.GetBool

/-- Middle revision `Int64`, built on `GetInt64`. -/
def V2.Int64 : IntAssignTy := assignVia V2.GetInt64

/-- Middle revision `Int32`, built on `GetInt32`. -/
def V2.Int32 : IntAssignTy := assignVia V2.GetInt32

/-- Middle revision `Int`, built on `GetInt`. -/
def V2.Int : IntAssignTy := assignVia V2.GetInt

/-- Middle revision `Uint64`, built on `GetUint64`. -/
def V2.Uint64 : NatAssignTy := assignVia V2.GetUint64

/-- Middle revision `Uint32`, built on `GetUint32`. -/
def V2.Uint32 : NatAssignTy := assignVia V2.GetUint32

/-- Middle revision `Uint`, built on `GetUint`. -/
def V2.Uint : NatAssignTy := assignVia V2.GetUint

/-- Final revision `String` (`src/secureenv.go` lines 28-36): absent key
leaves the output untouched; a present key is unset and its raw value
written; no error is possible. -/
def V3.String : StrAssignTy := fun output key env =>
  match lookupEnv env key with
  | none => (output, env)
  | some v => (v, unsetenv env key)

/-- Final revision `Bool` = the assign skeleton with
`strconv.ParseBool`. -/
def V3.Bool : BoolAssignTy := assignGo parseBool

/-- Final revision `Int64` = the assign skeleton with
`strconv.ParseInt(s, 0, 64)`. -/
def V3.Int64 : IntAssignTy := assignGo (fun s => parseInt s 0 64)

/-- Final revision `Int32` = the assign skeleton with
`strconv.ParseInt(s, 0, 32)` (the `int32(val)` conversion on the
success path is the identity, since the value is range-checked). -/
def V3.Int32 : IntAssignTy := assignGo (fun s => parseInt s 0 32)

/-- Final revision `Int` = the assign skeleton with
`strconv.ParseInt(s, 0, intsize)`. -/
def V3.Int : IntAssignTy := assignGo (fun s => parseInt s 0 intsize)

/-- Final revision `Uint64` = the assign skeleton with
`strconv.ParseUint(s, 0, 64)`. -/
def V3.Uint64 : NatAssignTy := assignGo (fun s => parseUint s 0 64)

/-- Final revision `Uint32` = the assign skeleton with
`strconv.ParseUint(s, 0, 32)`. -/
def V3.Uint32 : NatAssignTy := assignGo (fun s => parseUint s 0 32)

/-- Final revision `Uint` = the assign skeleton with
`strconv.ParseUint(s, 0, uintsize)`. -/
def V3.Uint : NatAssignTy := assignGo (fun s => parseUint s 0 uintsize)

/-- Mathematical positional value of a character list in base `b`
(each character contributing `digitVal`), starting from accumulator
`acc`: the specification the `ParseUint` loop is checked against. -/
def digitsVal (b : Nat) (acc : Nat) : List Char → Nat
  | [] => acc
  | c :: cs => digitsVal b (acc * b + (digitVal c).getD 0) cs

/-- The ten decimal digit characters. -/
def decimalDigits : List Char := ['9', '8', '7', '6', '5', '4', '3', '2', '1', '0']

/-- The eight octal digit characters. -/
def octalDigits : List Char := ['7', '6', '5', '4', '3', '2', '1', '0']

/-- The two binary digit characters. -/
def binaryDigits : List Char := ['1', '0']

/-- The twenty-two hexadecimal digit characters. -/
def hexDigits : List Char :=
  ['F', 'f', 'E', 'e', 'D', 'd', 'C', 'c', 'B', 'b', 'A', 'a',
   '9', '8', '7', '6', '5', '4', '3', '2', '1', '0']

/-- A character the `ParseUint` digit loop rejects for the given base:
not an underscore-skip, and either not a digit at all or a digit not
below the base. -/
def badDigit (base : Nat) (base0 : Bool) (c : Char) : Prop :=
  ¬(c = '_' ∧ base0 = true) ∧
    (digitVal c = none ∨ ∃ d, digitVal c = some d ∧ base ≤ d)

theorem lookupEnv_unsetenv_self (env : Env) (key : String) :
    lookupEnv (unsetenv env key) key = none := by
  induction env with
  | nil => rfl
  | cons p rest ih =>
      obtain ⟨k, v⟩ := p
      by_cases h : k = key <;> simp [unsetenv, lookupEnv, h, ih]

theorem lookupEnv_unsetenv_ne (env : Env) (key k' : String) (h : k' ≠ key) :
    lookupEnv (unsetenv env key) k' = lookupEnv env k' := by
  induction env with
  | nil => rfl
  | cons p rest ih =>
      obtain ⟨k, v⟩ := p
      by_cases hk : k = key
      · subst hk
        have : k ≠ k' := fun hkk => h hkk.symm
        simp [unsetenv, lookupEnv, this, ih]
      · simp only [unsetenv, if_neg hk]
        by_cases hk' : k = k' <;> simp [lookupEnv, hk', ih]

theorem getGo_absent {α : Type u} (zero : α) (parse : String → α × Option ParseError)
    (key : String) (env : Env) (h : lookupEnv env key = none) :
    getGo zero parse key env = (zero, false, none, env) := by
  simp [getGo, h]

theorem getGo_present {α : Type u} (zero : α) (parse : String → α × Option ParseError)
    (key v : String) (env : Env) (h : lookupEnv env key = some v) :
    getGo zero parse key env = ((parse v).1, true, (parse v).2, unsetenv env key) := by
  rcases hp : parse v with ⟨val, err⟩
  simp [getGo, h, hp]

theorem assignGo_absent {α : Type u} (parse : String → α × Option ParseError)
    (out : α) (key : String) (env : Env) (h : lookupEnv env key = none) :
    assignGo parse out key env = (out, none, env) := by
  simp [assignGo, h]

theorem assignGo_present_ok {α : Type u} (parse : String → α × Option ParseError)
    (out : α) (key v : String) (env : Env) (val : α)
    (h : lookupEnv env key = some v) (hp : parse v = (val, none)) :
    assignGo parse out key env = (val, none, unsetenv env key) := by
  simp [assignGo, h, hp]

theorem assignGo_present_err {α : Type u} (parse : String → α × Option ParseError)
    (out : α) (key v : String) (env : Env) (val : α) (e : ParseError)
    (h : lookupEnv env key = some v) (hp : parse v = (val, some e)) :
    assignGo parse out key env = (out, some e, unsetenv env key) := by
  simp [assignGo, h, hp]

theorem assignVia_getGo_eq {α : Type u} (zero : α) (parse : String → α × Option ParseError)
    (out : α) (key : String) (env : Env) :
    assignVia (getGo zero parse) out key env = assignGo parse out key env := by
  rcases h : lookupEnv env key with _ | v
  · simp [assignVia, assignGo, getGo, h]
  · rcases hp : parse v with ⟨val, err⟩
    rcases err with _ | e <;> simp [assignVia, assignGo, getGo, h, hp]

theorem getGo_env_eq {α : Type u} (zero : α) (parse : String → α × Option ParseError)
    (key : String) (env : Env) :
    (getGo zero parse key env).2.2.2
      = (if (lookupEnv env key).isSome then unsetenv env key else env) := by
  rcases h : lookupEnv env key with _ | v
  · simp [getGo_absent zero parse key env h, h]
  · simp [getGo_present zero parse key v env h, h]

theorem assignGo_env_eq {α : Type u} (parse : String → α × Option ParseError)
    (out : α) (key : String) (env : Env) :
    (assignGo parse out key env).2.2
      = (if (lookupEnv env key).isSome then unsetenv env key else env) := by
  rcases h : lookupEnv env key with _ | v
  · simp [assignGo_absent parse out key env h]
  · rcases hp : parse v with ⟨val, err⟩
    rcases err with _ | e
    · simp [assignGo_present_ok parse out key v env val h hp, h]
    · simp [assignGo_present_err parse out key v env val e h hp, h]

theorem V3String_env_eq (out key : String) (env : Env) :
    (V3.String out key env).2
      = (if (lookupEnv env key).isSome then unsetenv env key else env) := by
  rcases h : lookupEnv env key with _ | v <;> simp [V3.String, h]

theorem V2GetString_env_eq (key : String) (env : Env) :
    (V2.GetString key env).2.2
      = (if (lookupEnv env key).isSome then unsetenv env key else env) := by
  rcases h : lookupEnv env key with _ | v <;> simp [V2.GetString, h]

theorem V1Get_env_eq (key dflt : String) (env : Env) :
    (V1.Get key dflt env).2
      = (if (lookupEnv env key).isSome then unsetenv env key else env) := by
  rcases h : lookupEnv env key with _ | v <;> simp [V1.Get, h]

/-- The environment produced by any of the skeletons never has the key
afterwards when it was present, and is untouched when it was absent; in
both cases a second lookup of the key fails. -/
theorem lookup_if_unset_none (key : String) (env : Env) :
    lookupEnv (if (lookupEnv env key).isSome then unsetenv env key else env) key = none := by
  rcases h : lookupEnv env key with _ | v <;>
    simp [h, lookupEnv_unsetenv_self]

theorem V1Get_absent (key dflt : String) (env : Env) (h : lookupEnv env key = none) :
    V1.Get key dflt env = (dflt, env) := by
  simp [V1.Get, h]

theorem V3String_absent (out key : String) (env : Env) (h : lookupEnv env key = none) :
    V3.String out key env = (out, env) := by
  simp [V3.String, h]

theorem V2GetString_absent (key : String) (env : Env) (h : lookupEnv env key = none) :
    V2.GetString key env = ("", false, env) := by
  simp [V2.GetString, h]

theorem frame_if (key k' : String) (env : Env) (h : k' ≠ key) :
    lookupEnv (if (lookupEnv env key).isSome then unsetenv env key else env) k'
      = lookupEnv env k' := by
  rcases hl : lookupEnv env key with _ | v <;>
    simp [hl, lookupEnv_unsetenv_ne env key k' h]

/-- C1: for every key present in the environment, every typed accessor —
`Get*`-style fetcher or assign-style accessor, for every target type —
removes the key from the environment on every exit path; in particular,
when the present value fails to parse, the accessor still returns the
environment with the key removed, together with the `ParseError`. -/
theorem accessors_remove_present_key (key v : String) (env : Env)
    (h : lookupEnv env key = some v) :
    (∀ (α : Type) (zero : α) (parse : String → α × Option ParseError),
        lookupEnv ((getGo zero parse key env).2.2.2) key = none) ∧
    (∀ (α : Type) (parse : String → α × Option ParseError) (out : α),
        lookupEnv ((assignGo parse out key env).2.2) key = none) ∧
    (∀ (α : Type) (parse : String → α × Option ParseError) (out val : α) (e : ParseError),
        parse v = (val, some e) →
        assignGo parse out key env = (out, some e, unsetenv env key) ∧
        lookupEnv (unsetenv env key) key = none) ∧
    (∀ out, lookupEnv ((V3.String out key env).2) key = none) ∧
    lookupEnv ((V2.GetString key env).2.2) key = none ∧
    (∀ out, lookupEnv ((V2.String out key env).2) key = none) ∧
    (∀ dflt, lookupEnv ((V1.Get key dflt env).2) key = none) := by
  refine ⟨?_, ?_, ?_, ?_, ?_, ?_, ?_⟩
  · intro α zero parse
    rw [getGo_env_eq]; exact lookup_if_unset_none key env
  · intro α parse out
    rw [assignGo_env_eq]; exact lookup_if_unset_none key env
  · intro α parse out val e hp
    exact ⟨assignGo_present_err parse out key v env val e h hp,
           lookupEnv_unsetenv_self env key⟩
  · intro out
    rw [V3String_env_eq]; exact lookup_if_unset_none key env
  · rw [V2GetString_env_eq]; exact lookup_if_unset_none key env
  · intro out
    simp [V2.String, V2.GetString, h, lookupEnv_unsetenv_self]
  · intro dflt
    rw [V1Get_env_eq]; exact lookup_if_unset_none key env

theorem accessors_remove_present_key_witness :
    lookupEnv ((V3.Bool false "FLAG" [("FLAG", "notabool")]).2.2) "FLAG" = none ∧
    lookupEnv ((V2.GetInt64 "COUNT" [("COUNT", "notanumber")]).2.2.2) "COUNT" = none := by
  constructor
  · exact (accessors_remove_present_key "FLAG" "notabool" [("FLAG", "notabool")]
      (by decide)).2.1 Bool parseBool false
  · exact (accessors_remove_present_key "COUNT" "notanumber" [("COUNT", "notanumber")]
      (by decide)).1 Int 0 (fun s => parseInt s 0 64)

/-- C2: for every assign-style accessor, every key and every starting
output value: an absent key leaves the output unmodified with no error;
a present, parseable value is written to the output with no error; a
present, unparseable value leaves the output unmodified and returns the
`ParseError`.  The first conjunct covers every error-returning accessor
(`Bool`, `Float64`, `Float32`, `Int64`, `Int32`, `Int`, `Uint64`,
`Uint32`, `Uint`) at once, since each is the `assignGo` skeleton applied
to its parse routine; the second covers `String`, whose values always
parse. -/
theorem assign_accessor_semantics :
    (∀ (α : Type) (parse : String → α × Option ParseError) (out : α) (key : String) (env : Env),
      (lookupEnv env key = none → assignGo parse out key env = (out, none, env)) ∧
      (∀ v val, lookupEnv env key = some v → parse v = (val, none) →
          assignGo parse out key env = (val, none, unsetenv env key)) ∧
      (∀ v val e, lookupEnv env key = some v → parse v = (val, some e) →
          assignGo parse out key env = (out, some e, unsetenv env key))) ∧
    (∀ (out key : String) (env : Env),
      (lookupEnv env key = none → V3.String out key env = (out, env)) ∧
      (∀ v, lookupEnv env key = some v → V3.String out key env = (v, unsetenv env key))) := by
  constructor
  · intro α parse out key env
    exact ⟨assignGo_absent parse out key env,
           fun v val hl hp => assignGo_present_ok parse out key v env val hl hp,
           fun v val e hl hp => assignGo_present_err parse out key v env val e hl hp⟩
  · intro out key env
    exact ⟨fun h => by simp [V3.String, h], fun v h => by simp [V3.String, h]⟩

theorem assign_accessor_semantics_witness :
    V3.Bool false "DEBUG" [] = (false, none, []) ∧
    V3.Bool false "FLAG" [("FLAG", "true")]
      = (true, none, unsetenv [("FLAG", "true")] "FLAG") ∧
    V3.Bool true "FLAG" [("FLAG", "yes")]
      = (true, some (syntaxError "ParseBool" "yes"), unsetenv [("FLAG", "yes")] "FLAG") := by
  refine ⟨?_, ?_, ?_⟩
  · exact (assign_accessor_semantics.1 Bool parseBool false "DEBUG" []).1 rfl
  · exact (assign_accessor_semantics.1 Bool parseBool false "FLAG"
      [("FLAG", "true")]).2.1 "true" true (by decide) (by decide)
  · exact (assign_accessor_semantics.1 Bool parseBool true "FLAG"
      [("FLAG", "yes")]).2.2 "yes" false (syntaxError "ParseBool" "yes") (by decide) (by decide)

/-- C3: for every key absent from the environment, every `Get*`-style
fetcher returns the zero value of its target type, `present = false` and
no error, and leaves the environment completely unchanged (`GetString`,
which has no error result, returns the empty string and `false`). -/
theorem fetch_absent_semantics :
    (∀ (α : Type) (zero : α) (parse : String → α × Option ParseError) (key : String) (env : Env),
        lookupEnv env key = none → getGo zero parse key env = (zero, false, none, env)) ∧
    (∀ (key : String) (env : Env), lookupEnv env key = none →
        V2.GetString key env = ("", false, env)) := by
  exact ⟨fun α zero parse key env h => getGo_absent zero parse key env h,
         fun key env h => by simp [V2.GetString, h]⟩

theorem fetch_absent_semantics_witness :
    V2.GetInt64 "PORT" [("HOME", "/root")] = (0, false, none, [("HOME", "/root")]) := by
  exact fetch_absent_semantics.1 Int 0 (fun s => parseInt s 0 64) "PORT"
    [("HOME", "/root")] (by decide)

/-- C7: calling any accessor twice in a row for the same key is
idempotent in its environment effect: after the first call the key is
absent, so the second call removes nothing, returns no error, reports
absence and leaves any output reference unmodified — whatever the
outcome of the first call was. -/
theorem accessor_idempotent_absence :
    ∀ (key : String) (env : Env),
      (∀ (α : Type) (zero : α) (parse : String → α × Option ParseError),
          lookupEnv ((getGo zero parse key env).2.2.2) key = none ∧
          getGo zero parse key ((getGo zero parse key env).2.2.2)
            = (zero, false, none, (getGo zero parse key env).2.2.2)) ∧
      (∀ (α : Type) (parse : String → α × Option ParseError) (out1 out2 : α),
          assignGo parse out2 key ((assignGo parse out1 key env).2.2)
            = (out2, none, (assignGo parse out1 key env).2.2)) ∧
      (∀ (α : Type) (zero : α) (parse : String → α × Option ParseError) (out1 out2 : α),
          assignVia (getGo zero parse) out2 key
              ((assignVia (getGo zero parse) out1 key env).2.2)
            = (out2, none, (assignVia (getGo zero parse) out1 key env).2.2)) ∧
      (∀ dflt1 dflt2 : String, V1.Get key dflt2 ((V1.Get key dflt1 env).2)
            = (dflt2, (V1.Get key dflt1 env).2)) ∧
      (∀ out1 out2 : String, V3.String out2 key ((V3.String out1 key env).2)
            = (out2, (V3.String out1 key env).2)) ∧
      V2.GetString key ((V2.GetString key env).2.2)
        = ("", false, (V2.GetString key env).2.2) := by
  intro key env
  refine ⟨?_, ?_, ?_, ?_, ?_, ?_⟩
  · intro α zero parse
    have h2 : lookupEnv ((getGo zero parse key env).2.2.2) key = none := by
      rw [getGo_env_eq]; exact lookup_if_unset_none key env
    exact ⟨h2, getGo_absent zero parse key _ h2⟩
  · intro α parse out1 out2
    have h2 : lookupEnv ((assignGo parse out1 key env).2.2) key = none := by
      rw [assignGo_env_eq]; exact lookup_if_unset_none key env
    exact assignGo_absent parse out2 key _ h2
  · intro α zero parse out1 out2
    simp only [assignVia_getGo_eq]
    have h2 : lookupEnv ((assignGo parse out1 key env).2.2) key = none := by
      rw [assignGo_env_eq]; exact lookup_if_unset_none key env
    exact assignGo_absent parse out2 key _ h2
  · intro dflt1 dflt2
    have h2 : lookupEnv ((V1.Get key dflt1 env).2) key = none := by
      rw [V1Get_env_eq]; exact lookup_if_unset_none key env
    exact V1Get_absent key dflt2 _ h2
  · intro out1 out2
    have h2 : lookupEnv ((V3.String out1 key env).2) key = none := by
      rw [V3String_env_eq]; exact lookup_if_unset_none key env
    exact V3String_absent out2 key _ h2
  · have h2 : lookupEnv ((V2.GetString key env).2.2) key = none := by
      rw [V2GetString_env_eq]; exact lookup_if_unset_none key env
    exact V2GetString_absent key _ h2

/-- C8: the only environment mutation any accessor call performs is the
removal of the looked-up key itself, at most once and only when the key
was present: every other key maps to the same value afterwards, an
absent key leaves the environment untouched, and a present key yields
exactly `unsetenv env key`. -/
theorem accessor_frame (key : String) (env : Env) :
    (∀ (α : Type) (zero : α) (parse : String → α × Option ParseError),
        (∀ k', k' ≠ key →
            lookupEnv ((getGo zero parse key env).2.2.2) k' = lookupEnv env k') ∧
        (lookupEnv env key = none → (getGo zero parse key env).2.2.2 = env) ∧
        (∀ v, lookupEnv env key = some v →
            (getGo zero parse key env).2.2.2 = unsetenv env key)) ∧
    (∀ (α : Type) (parse : String → α × Option ParseError) (out : α),
        (∀ k', k' ≠ key →
            lookupEnv ((assignGo parse out key env).2.2) k' = lookupEnv env k') ∧
        (lookupEnv env key = none → (assignGo parse out key env).2.2 = env) ∧
        (∀ v, lookupEnv env key = some v →
            (assignGo parse out key env).2.2 = unsetenv env key)) ∧
    (∀ out : String,
        (∀ k', k' ≠ key →
            lookupEnv ((V3.String out key env).2) k' = lookupEnv env k') ∧
        (lookupEnv env key = none → (V3.String out key env).2 = env) ∧
        (∀ v, lookupEnv env key = some v →
            (V3.String out key env).2 = unsetenv env key)) ∧
    ((∀ k', k' ≠ key →
            lookupEnv ((V2.GetString key env).2.2) k' = lookupEnv env k') ∧
        (lookupEnv env key = none → (V2.GetString key env).2.2 = env) ∧
        (∀ v, lookupEnv env key = some v →
            (V2.GetString key env).2.2 = unsetenv env key)) ∧
    (∀ dflt : String,
        (∀ k', k' ≠ key →
            lookupEnv ((V1.Get key dflt env).2) k' = lookupEnv env k') ∧
        (lookupEnv env key = none → (V1.Get key dflt env).2 = env) ∧
        (∀ v, lookupEnv env key = some v →
            (V1.Get key dflt env).2 = unsetenv env key)) := by
  refine ⟨?_, ?_, ?_, ?_, ?_⟩
  · intro α zero parse
    refine ⟨fun k' hk' => ?_, fun h => ?_, fun v h => ?_⟩
    · rw [getGo_env_eq]; exact frame_if key k' env hk'
    · rw [getGo_env_eq, h]; rfl
    · rw [getGo_env_eq, h]; rfl
  · intro α parse out
    refine ⟨fun k' hk' => ?_, fun h => ?_, fun v h => ?_⟩
    · rw [assignGo_env_eq]; exact frame_if key k' env hk'
    · rw [assignGo_env_eq, h]; rfl
    · rw [assignGo_env_eq, h]; rfl
  · intro out
    refine ⟨fun k' hk' => ?_, fun h => ?_, fun v h => ?_⟩
    · rw [V3String_env_eq]; exact frame_if key k' env hk'
    · rw [V3String_env_eq, h]; rfl
    · rw [V3String_env_eq, h]; rfl
  · refine ⟨fun k' hk' => ?_, fun h => ?_, fun v h => ?_⟩
    · rw [V2GetString_env_eq]; exact frame_if key k' env hk'
    · rw [V2GetString_env_eq, h]; rfl
    · rw [V2GetString_env_eq, h]; rfl
  · intro dflt
    refine ⟨fun k' hk' => ?_, fun h => ?_, fun v h => ?_⟩
    · rw [V1Get_env_eq]; exact frame_if key k' env hk'
    · rw [V1Get_env_eq, h]; rfl
    · rw [V1Get_env_eq, h]; rfl

theorem accessor_frame_witness :
    lookupEnv ((V3.String "x" "PORT" [("PORT", "8080"), ("HOME", "/root")]).2) "HOME"
      = lookupEnv [("PORT", "8080"), ("HOME", "/root")] "HOME" ∧
    (V3.String "x" "PORT" [("PORT", "8080"), ("HOME", "/root")]).2
      = unsetenv [("PORT", "8080"), ("HOME", "/root")] "PORT" := by
  constructor
  · exact ((accessor_frame "PORT" [("PORT", "8080"), ("HOME", "/root")]).2.2.1 "x").1
      "HOME" (by decide)
  · exact ((accessor_frame "PORT" [("PORT", "8080"), ("HOME", "/root")]).2.2.1 "x").2.2
      "8080" (by decide)

/-- C9: every final-revision assign-style accessor is observationally
equivalent — same output write, same error, same resulting environment —
to the middle-revision accessor of the same name built on the
corresponding `Get*` fetcher.  The first conjunct is the generic fact for
the shared skeletons (any parse routine, hence also the float accessors);
the remaining conjuncts instantiate it for each accessor defined in both
revisions. -/
theorem final_middle_equivalence :
    (∀ (α : Type) (zero : α) (parse : String → α × Option ParseError)
        (out : α) (key : String) (env : Env),
        assignGo parse out key env = assignVia (getGo zero parse) out key env) ∧
    (∀ out key env, V3.Bool out key env = V2.Bool out key env) ∧
    (∀ out key env, V3.Int64 out key env = V2.Int64 out key env) ∧
    (∀ out key env, V3.Int32 out key env = V2.Int32 out key env) ∧
    (∀ out key env, V3.Int out key env = V2.Int out key env) ∧
    (∀ out key env, V3.Uint64 out key env = V2.Uint64 out key env) ∧
    (∀ out key env, V3.Uint32 out key env = V2.Uint32 out key env) ∧
    (∀ out key env, V3.Uint out key env = V2.Uint out key env) ∧
    (∀ out key env, V3.String out key env = V2.String out key env) := by
  refine ⟨fun α zero parse out key env => (assignVia_getGo_eq zero parse out key env).symm,
    fun out key env => (assignVia_getGo_eq false parseBool out key env).symm,
    fun out key env => (assignVia_getGo_eq 0 (fun s => parseInt s 0 64) out key env).symm,
    fun out key env => (assignVia_getGo_eq 0 (fun s => parseInt s 0 32) out key env).symm,
    fun out key env => (assignVia_getGo_eq 0 (fun s => parseInt s 0 intsize) out key env).symm,
    fun out key env => (assignVia_getGo_eq 0 (fun s => parseUint s 0 64) out key env).symm,
    fun out key env => (assignVia_getGo_eq 0 (fun s => parseUint s 0 32) out key env).symm,
    fun out key env => (assignVia_getGo_eq 0 (fun s => parseUint s 0 uintsize) out key env).symm,
    fun out key env => ?_⟩
  rcases h : lookupEnv env key with _ | v <;>
    simp [V3.String, V2.String, V2.GetString, h]

/-- C10: the first-revision `Get(key, def)` returns `def` and leaves the
environment unchanged when the key is absent; when the key is present it
returns the stored value and removes the key before returning.  It has
no error result at all (its type returns only the value and the new
environment). -/
theorem v1_get_semantics (key dflt : String) (env : Env) :
    (lookupEnv env key = none → V1.Get key dflt env = (dflt, env)) ∧
    (∀ v, lookupEnv env key = some v →
        V1.Get key dflt env = (v, unsetenv env key) ∧
        lookupEnv (V1.Get key dflt env).2 key = none) := by
  constructor
  · intro h; simp [V1.Get, h]
  · intro v h
    constructor
    · simp [V1.Get, h]
    · simp [V1.Get, h, lookupEnv_unsetenv_self]

theorem v1_get_semantics_witness :
    V1.Get "PORT" "default" [] = ("default", []) ∧
    V1.Get "PORT" "default" [("PORT", "8080")]
      = ("8080", unsetenv [("PORT", "8080")] "PORT") := by
  exact ⟨(v1_get_semantics "PORT" "default" []).1 rfl,
         ((v1_get_semantics "PORT" "default" [("PORT", "8080")]).2 "8080" (by decide)).1⟩

theorem parseBool_err_none_iff (s : String) :
    (parseBool s).2 = none ↔
      (s = "1" ∨ s = "t" ∨ s = "T" ∨ s = "true" ∨ s = "TRUE" ∨ s = "True" ∨
       s = "0" ∨ s = "f" ∨ s = "F" ∨ s = "false" ∨ s = "FALSE" ∨ s = "False") := by
  by_cases h1 : (s = "1" ∨ s = "t" ∨ s = "T" ∨ s = "true" ∨ s = "TRUE" ∨ s = "True")
  · unfold parseBool; rw [if_pos h1]; simp; tauto
  · by_cases h2 : (s = "0" ∨ s = "f" ∨ s = "F" ∨ s = "false" ∨ s = "FALSE" ∨ s = "False")
    · unfold parseBool; rw [if_neg h1, if_pos h2]; simp; tauto
    · unfold parseBool; rw [if_neg h1, if_neg h2]; simp; tauto

/-- C5: the boolean parser used by `Bool` and `GetBool` succeeds exactly
on the twelve tokens of Go's `strconv.ParseBool` — the truthy set
`1,t,T,true,TRUE,True` (yielding `true`) and the falsy set
`0,f,F,false,FALSE,False` (yielding `false`) — and every other string
yields a `ParseError`; accordingly `GetBool` on a present value errors
exactly outside those twelve tokens. -/
theorem parseBool_twelve_tokens (s : String) :
    ((parseBool s).2 = none ↔
      (s = "1" ∨ s = "t" ∨ s = "T" ∨ s = "true" ∨ s = "TRUE" ∨ s = "True" ∨
       s = "0" ∨ s = "f" ∨ s = "F" ∨ s = "false" ∨ s = "FALSE" ∨ s = "False")) ∧
    ((s = "1" ∨ s = "t" ∨ s = "T" ∨ s = "true" ∨ s = "TRUE" ∨ s = "True") →
        parseBool s = (true, none)) ∧
    ((s = "0" ∨ s = "f" ∨ s = "F" ∨ s = "false" ∨ s = "FALSE" ∨ s = "False") →
        parseBool s = (false, none)) ∧
    (¬(s = "1" ∨ s = "t" ∨ s = "T" ∨ s = "true" ∨ s = "TRUE" ∨ s = "True" ∨
       s = "0" ∨ s = "f" ∨ s = "F" ∨ s = "false" ∨ s = "FALSE" ∨ s = "False") →
        parseBool s = (false, some (syntaxError "ParseBool" s))) ∧
    (∀ (key : String) (env : Env), lookupEnv env key = some s →
        (((V2.GetBool key env).2.2.1 = none) ↔
          (s = "1" ∨ s = "t" ∨ s = "T" ∨ s = "true" ∨ s = "TRUE" ∨ s = "True" ∨
           s = "0" ∨ s = "f" ∨ s = "F" ∨ s = "false" ∨ s = "FALSE" ∨ s = "False")) ∧
        (V2.GetBool key env).1 = (parseBool s).1) := by
  refine ⟨parseBool_err_none_iff s, ?_, ?_, ?_, ?_⟩
  · intro h
    unfold parseBool; rw [if_pos h]
  · intro h
    have h1 : ¬(s = "1" ∨ s = "t" ∨ s = "T" ∨ s = "true" ∨ s = "TRUE" ∨ s = "True") := by
      rcases h with h|h|h|h|h|h <;> subst h <;> decide
    unfold parseBool; rw [if_neg h1, if_pos h]
  · intro h
    have h1 : ¬(s = "1" ∨ s = "t" ∨ s = "T" ∨ s = "true" ∨ s = "TRUE" ∨ s = "True") := by
      tauto
    have h2 : ¬(s = "0" ∨ s = "f" ∨ s = "F" ∨ s = "false" ∨ s = "FALSE" ∨ s = "False") := by
      tauto
    unfold parseBool; rw [if_neg h1, if_neg h2]
  · intro key env hl
    have hg : V2.GetBool key env
        = ((parseBool s).1, true, (parseBool s).2, unsetenv env key) :=
      getGo_present false parseBool key s env hl
    rw [hg]
    exact ⟨parseBool_err_none_iff s, rfl⟩

theorem parseBool_twelve_tokens_witness :
    parseBool "True" = (true, none) ∧
    parseBool "False" = (false, none) ∧
    parseBool "yes" = (false, some (syntaxError "ParseBool" "yes")) := by
  exact ⟨(parseBool_twelve_tokens "True").2.1 (by decide),
         (parseBool_twelve_tokens "False").2.2.1 (by decide),
         (parseBool_twelve_tokens "yes").2.2.2.1 (by decide)⟩

theorem lt_div_add_one_mul (a b : Nat) (hb : 0 < b) : a < (a / b + 1) * b := by
  calc a = b * (a / b) + a % b := (Nat.div_add_mod a b).symm
    _ < b * (a / b) + b := Nat.add_lt_add_left (Nat.mod_lt a hb) _
    _ = (a / b + 1) * b := by ring

theorem digitsVal_ge (b : Nat) (hb : 1 ≤ b) (cs : List Char) :
    ∀ acc, acc ≤ digitsVal b acc cs := by
  induction cs with
  | nil => intro acc; simp [digitsVal]
  | cons c cs ih =>
      intro acc
      rw [digitsVal]
      refine le_trans ?_ (ih (acc * b + (digitVal c).getD 0))
      calc acc = acc * 1 := (Nat.mul_one acc).symm
        _ ≤ acc * b := Nat.mul_le_mul_left acc hb
        _ ≤ acc * b + (digitVal c).getD 0 := Nat.le_add_right _ _

theorem digitVal_decimal (c : Char) (h : c ∈ decimalDigits) :
    ∃ d, digitVal c = some d ∧ d < 10 := by
  fin_cases h <;> exact ⟨_, rfl, by decide⟩

theorem digitVal_octal (c : Char) (h : c ∈ octalDigits) :
    ∃ d, digitVal c = some d ∧ d < 8 := by
  fin_cases h <;> exact ⟨_, rfl, by decide⟩

theorem digitVal_binary (c : Char) (h : c ∈ binaryDigits) :
    ∃ d, digitVal c = some d ∧ d < 2 := by
  fin_cases h <;> exact ⟨_, rfl, by decide⟩

theorem digitVal_hex (c : Char) (h : c ∈ hexDigits) :
    ∃ d, digitVal c = some d ∧ d < 16 := by
  fin_cases h <;> exact ⟨_, rfl, by decide⟩

theorem parseUintLoop_digits (base : Nat) (base0 : Bool) (maxVal : Nat) (s0 : String)
    (hb : 2 ≤ base) (hmax : maxVal ≤ maxUint64) :
    ∀ cs : List Char, (∀ c ∈ cs, ∃ d, digitVal c = some d ∧ d < base) →
      ∀ acc, acc ≤ maxVal →
        parseUintLoop base base0 (maxUint64 / base + 1) maxVal s0 cs false acc
          = if digitsVal base acc cs ≤ maxVal
            then (digitsVal base acc cs, none, false)
            else (maxVal, some (rangeError "ParseUint" s0), false) := by
  intro cs
  induction cs with
  | nil =>
      intro _ acc hacc
      simp only [parseUintLoop, digitsVal, if_pos hacc]
  | cons c cs ih =>
      intro hdig acc hacc
      obtain ⟨d, hd, hdb⟩ := hdig c (List.mem_cons_self c cs)
      have hcne : ¬(c = '_' ∧ base0 = true) := by
        rintro ⟨hc, -⟩
        rw [hc] at hd
        have hnone : digitVal '_' = none := by decide
        rw [hnone] at hd
        exact Option.noConfusion hd
      have hdval : digitsVal base acc (c :: cs) = digitsVal base (acc * base + d) cs := by
        rw [digitsVal, hd]
        rfl
      simp only [parseUintLoop, if_neg hcne, hd]
      rw [if_neg (Nat.not_le.mpr hdb)]
      by_cases hcut : maxUint64 / base + 1 ≤ acc
      · rw [if_pos hcut]
        have h1 : maxUint64 < (maxUint64 / base + 1) * base :=
          lt_div_add_one_mul maxUint64 base (by omega)
        have h2 : (maxUint64 / base + 1) * base ≤ acc * base :=
          Nat.mul_le_mul_right base hcut
        have h3 : acc * base + d ≤ digitsVal base (acc * base + d) cs :=
          digitsVal_ge base (by omega) cs _
        rw [hdval, if_neg (by omega)]
      · rw [if_neg hcut]
        by_cases hov : maxVal < acc * base + d
        · rw [if_pos hov]
          have h3 : acc * base + d ≤ digitsVal base (acc * base + d) cs :=
            digitsVal_ge base (by omega) cs _
          rw [hdval, if_neg (by omega)]
        · rw [if_neg hov, hdval]
          exact ih (fun c' hc' => hdig c' (List.mem_cons_of_mem c hc'))
            (acc * base + d) (by omega)

theorem parseUintLoop_le (base : Nat) (base0 : Bool) (cutoff maxVal : Nat) (s0 : String) :
    ∀ (cs : List Char) (u : Bool) (acc : Nat), acc ≤ maxVal →
      (parseUintLoop base base0 cutoff maxVal s0 cs u acc).2.1 = none →
      (parseUintLoop base base0 cutoff maxVal s0 cs u acc).1 ≤ maxVal := by
  intro cs
  induction cs with
  | nil =>
      intro u acc hacc _
      simpa [parseUintLoop] using hacc
  | cons c cs ih =>
      intro u acc hacc
      simp only [parseUintLoop]
      by_cases hc : (c = '_' ∧ base0 = true)
      · rw [if_pos hc]
        exact ih true acc hacc
      · rw [if_neg hc]
        rcases hd : digitVal c with _ | d
        · simp only [hd]
          intro herr; exact absurd herr (by simp)
        · simp only [hd]
          split_ifs with h1 h2 h3
          · intro herr; exact absurd herr (by simp)
          · intro herr; exact absurd herr (by simp)
          · intro herr; exact absurd herr (by simp)
          · exact ih u (acc * base + d) (by omega)

theorem parseUintLoop_bad (base : Nat) (base0 : Bool) (cutoff maxVal : Nat) (s0 : String) :
    ∀ cs : List Char, (∃ c ∈ cs, badDigit base base0 c) →
      ∀ (u : Bool) (acc : Nat),
        ((parseUintLoop base base0 cutoff maxVal s0 cs u acc).2.1).isSome = true := by
  intro cs
  induction cs with
  | nil =>
      rintro ⟨c, hc, -⟩
      exact absurd hc (List.not_mem_nil c)
  | cons c cs ih =>
      rintro ⟨c', hc', hbad⟩ u acc
      simp only [parseUintLoop]
      rcases List.mem_cons.mp hc' with hh | ht
      · subst hh
        rw [if_neg hbad.1]
        rcases hbad.2 with hnone | ⟨d, hd, hbd⟩
        · simp only [hnone]
          rfl
        · simp only [hd]
          rw [if_pos hbd]
          rfl
      · by_cases hc0 : (c = '_' ∧ base0 = true)
        · rw [if_pos hc0]
          exact ih ⟨c', ht, hbad⟩ true acc
        · rw [if_neg hc0]
          rcases hd : digitVal c with _ | d
          · simp only [hd]
            rfl
          · simp only [hd]
            split_ifs with h1 h2 h3
            · rfl
            · rfl
            · rfl
            · exact ih ⟨c', ht, hbad⟩ u (acc * base + d)

theorem parseUintWithBase_digits (s : List Char) (s0 : String) (base : Nat) (base0 : Bool)
    (bitSize : Nat) (hb : 2 ≤ base) (hbs1 : bitSize ≠ 0) (hbs2 : bitSize ≤ 64)
    (hdig : ∀ c ∈ s, ∃ d, digitVal c = some d ∧ d < base) :
    parseUintWithBase s s0 base base0 bitSize
      = if digitsVal base 0 s ≤ 2 ^ bitSize - 1
        then (digitsVal base 0 s, none)
        else (2 ^ bitSize - 1, some (rangeError "ParseUint" s0)) := by
  have hmax : 2 ^ bitSize - 1 ≤ maxUint64 := by
    have h := Nat.pow_le_pow_right (by norm_num : 1 ≤ 2) hbs2
    unfold maxUint64
    omega
  have hloop := parseUintLoop_digits base base0 (2 ^ bitSize - 1) s0 hb hmax s hdig 0
    (Nat.zero_le _)
  simp only [parseUintWithBase]
  rw [if_neg (show ¬(bitSize ≠ 0 ∧ 64 < bitSize) by omega), if_neg hbs1, hloop]
  by_cases hle : digitsVal base 0 s ≤ 2 ^ bitSize - 1
  · rw [if_pos hle, if_pos hle]
    simp
  · rw [if_neg hle, if_neg hle]

theorem parseUintWithBase_le (s : List Char) (s0 : String) (base : Nat) (base0 : Bool)
    (bitSize : Nat) (hbs1 : bitSize ≠ 0) (hbs2 : bitSize ≤ 64) :
    (parseUintWithBase s s0 base base0 bitSize).2 = none →
      (parseUintWithBase s s0 base base0 bitSize).1 ≤ 2 ^ bitSize - 1 := by
  have hloople := parseUintLoop_le base base0 (maxUint64 / base + 1) (2 ^ bitSize - 1) s0
    s false 0 (Nat.zero_le _)
  simp only [parseUintWithBase]
  rw [if_neg (show ¬(bitSize ≠ 0 ∧ 64 < bitSize) by omega), if_neg hbs1]
  rcases hres : parseUintLoop base base0 (maxUint64 / base + 1) (2 ^ bitSize - 1) s0 s false 0
    with ⟨v, err, u⟩
  rw [hres] at hloople
  rcases err with _ | e
  · simp only []
    split_ifs with hu
    · intro h; exact absurd h (by simp)
    · intro _
      exact hloople rfl
  · intro h; exact absurd h (by simp)

theorem parseUintWithBase_bad (s : List Char) (s0 : String) (base : Nat) (base0 : Bool)
    (bitSize : Nat) (hbad : ∃ c ∈ s, badDigit base base0 c) :
    ((parseUintWithBase s s0 base base0 bitSize).2).isSome = true := by
  simp only [parseUintWithBase]
  split_ifs with h1 h2
  · rfl
  · rcases hres : parseUintLoop base base0 (maxUint64 / base + 1) (2 ^ IntSize - 1) s0 s false 0
      with ⟨v, err, u⟩
    have hl := parseUintLoop_bad base base0 (maxUint64 / base + 1) (2 ^ IntSize - 1) s0
      s hbad false 0
    rw [hres] at hl
    rcases err with _ | e
    · exact absurd hl (by simp)
    · rfl
  · rcases hres : parseUintLoop base base0 (maxUint64 / base + 1) (2 ^ bitSize - 1) s0 s false 0
      with ⟨v, err, u⟩
    have hl := parseUintLoop_bad base base0 (maxUint64 / base + 1) (2 ^ bitSize - 1) s0
      s hbad false 0
    rw [hres] at hl
    rcases err with _ | e
    · exact absurd hl (by simp)
    · rfl

theorem parseUintCore_decimal (c0 : Char) (rest : List Char) (s0 : String) (bitSize : Nat)
    (hbs1 : bitSize ≠ 0) (hbs2 : bitSize ≤ 64)
    (hd : ∀ c ∈ c0 :: rest, c ∈ decimalDigits) (h0 : c0 ≠ '0') :
    parseUintCore (c0 :: rest) s0 0 bitSize
      = if digitsVal 10 0 (c0 :: rest) ≤ 2 ^ bitSize - 1
        then (digitsVal 10 0 (c0 :: rest), none)
        else (2 ^ bitSize - 1, some (rangeError "ParseUint" s0)) := by
  have h1 : parseUintCore (c0 :: rest) s0 0 bitSize
      = parseUintWithBase (c0 :: rest) s0 10 true bitSize := by
    simp [parseUintCore, h0]
  rw [h1]
  exact parseUintWithBase_digits (c0 :: rest) s0 10 true bitSize (by norm_num) hbs1 hbs2
    (fun c hc => digitVal_decimal c (hd c hc))

theorem parseUintCore_octal (rest : List Char) (s0 : String) (bitSize : Nat)
    (hbs1 : bitSize ≠ 0) (hbs2 : bitSize ≤ 64)
    (hd : ∀ c ∈ rest, c ∈ octalDigits) :
    parseUintCore ('0' :: rest) s0 0 bitSize
      = if digitsVal 8 0 rest ≤ 2 ^ bitSize - 1
        then (digitsVal 8 0 rest, none)
        else (2 ^ bitSize - 1, some (rangeError "ParseUint" s0)) := by
  have h1 : parseUintCore ('0' :: rest) s0 0 bitSize
      = parseUintWithBase rest s0 8 true bitSize := by
    rcases rest with _ | ⟨c1, rest1⟩
    · simp [parseUintCore]
    rcases rest1 with _ | ⟨c2, rest2⟩
    · simp [parseUintCore]
    · have hc1 := hd c1 (by simp)
      have hne : lower c1 ≠ 'b' ∧ lower c1 ≠ 'o' ∧ lower c1 ≠ 'x' := by
        fin_cases hc1 <;> exact ⟨by decide, by decide, by decide⟩
      simp [parseUintCore, hne.1, hne.2.1, hne.2.2]
  rw [h1]
  exact parseUintWithBase_digits rest s0 8 true bitSize (by norm_num) hbs1 hbs2
    (fun c hc => digitVal_octal c (hd c hc))

theorem parseUintCore_hexPrefix (cx d1 : Char) (rest : List Char) (s0 : String)
    (bitSize : Nat) (hbs1 : bitSize ≠ 0) (hbs2 : bitSize ≤ 64) (hx : lower cx = 'x')
    (hd : ∀ c ∈ d1 :: rest, c ∈ hexDigits) :
    parseUintCore ('0' :: cx :: d1 :: rest) s0 0 bitSize
      = if digitsVal 16 0 (d1 :: rest) ≤ 2 ^ bitSize - 1
        then (digitsVal 16 0 (d1 :: rest), none)
        else (2 ^ bitSize - 1, some (rangeError "ParseUint" s0)) := by
  have h1 : parseUintCore ('0' :: cx :: d1 :: rest) s0 0 bitSize
      = parseUintWithBase (d1 :: rest) s0 16 true bitSize := by
    simp [parseUintCore, hx]
  rw [h1]
  exact parseUintWithBase_digits (d1 :: rest) s0 16 true bitSize (by norm_num) hbs1 hbs2
    (fun c hc => digitVal_hex c (hd c hc))

theorem parseUintCore_octalPrefix (co d1 : Char) (rest : List Char) (s0 : String)
    (bitSize : Nat) (hbs1 : bitSize ≠ 0) (hbs2 : bitSize ≤ 64) (ho : lower co = 'o')
    (hd : ∀ c ∈ d1 :: rest, c ∈ octalDigits) :
    parseUintCore ('0' :: co :: d1 :: rest) s0 0 bitSize
      = if digitsVal 8 0 (d1 :: rest) ≤ 2 ^ bitSize - 1
        then (digitsVal 8 0 (d1 :: rest), none)
        else (2 ^ bitSize - 1, some (rangeError "ParseUint" s0)) := by
  have h1 : parseUintCore ('0' :: co :: d1 :: rest) s0 0 bitSize
      = parseUintWithBase (d1 :: rest) s0 8 true bitSize := by
    simp [parseUintCore, ho]
  rw [h1]
  exact parseUintWithBase_digits (d1 :: rest) s0 8 true bitSize (by norm_num) hbs1 hbs2
    (fun c hc => digitVal_octal c (hd c hc))

theorem parseUintCore_binaryPrefix (cb d1 : Char) (rest : List Char) (s0 : String)
    (bitSize : Nat) (hbs1 : bitSize ≠ 0) (hbs2 : bitSize ≤ 64) (hb : lower cb = 'b')
    (hd : ∀ c ∈ d1 :: rest, c ∈ binaryDigits) :
    parseUintCore ('0' :: cb :: d1 :: rest) s0 0 bitSize
      = if digitsVal 2 0 (d1 :: rest) ≤ 2 ^ bitSize - 1
        then (digitsVal 2 0 (d1 :: rest), none)
        else (2 ^ bitSize - 1, some (rangeError "ParseUint" s0)) := by
  have h1 : parseUintCore ('0' :: cb :: d1 :: rest) s0 0 bitSize
      = parseUintWithBase (d1 :: rest) s0 2 true bitSize := by
    simp [parseUintCore, hb]
  rw [h1]
  exact parseUintWithBase_digits (d1 :: rest) s0 2 true bitSize (by norm_num) hbs1 hbs2
    (fun c hc => digitVal_binary c (hd c hc))

theorem parseUintCore_le (s : List Char) (s0 : String) (base bitSize : Nat)
    (hbs1 : bitSize ≠ 0) (hbs2 : bitSize ≤ 64) :
    (parseUintCore s s0 base bitSize).2 = none →
      (parseUintCore s s0 base bitSize).1 ≤ 2 ^ bitSize - 1 := by
  rcases s with _ | ⟨c0, rest⟩
  · intro h
    exact absurd h (by simp [parseUintCore])
  by_cases hvb : 2 ≤ base ∧ base ≤ 36
  · have he : parseUintCore (c0 :: rest) s0 base bitSize
        = parseUintWithBase (c0 :: rest) s0 base false bitSize := by
      simp [parseUintCore, hvb]
    rw [he]
    exact parseUintWithBase_le _ s0 base false bitSize hbs1 hbs2
  by_cases hb0 : base = 0
  · subst hb0
    by_cases hc0 : c0 = '0'
    · subst hc0
      rcases rest with _ | ⟨c1, rest1⟩
      · have he : parseUintCore ['0'] s0 0 bitSize
            = parseUintWithBase [] s0 8 true bitSize := by
          simp [parseUintCore]
        rw [he]
        exact parseUintWithBase_le _ s0 8 true bitSize hbs1 hbs2
      rcases rest1 with _ | ⟨c2, rest2⟩
      · have he : parseUintCore ['0', c1] s0 0 bitSize
            = parseUintWithBase [c1] s0 8 true bitSize := by
          simp [parseUintCore]
        rw [he]
        exact parseUintWithBase_le _ s0 8 true bitSize hbs1 hbs2
      by_cases hxb : lower c1 = 'b'
      · have he : parseUintCore ('0' :: c1 :: c2 :: rest2) s0 0 bitSize
            = parseUintWithBase (c2 :: rest2) s0 2 true bitSize := by
          simp [parseUintCore, hxb]
        rw [he]
        exact parseUintWithBase_le _ s0 2 true bitSize hbs1 hbs2
      by_cases hxo : lower c1 = 'o'
      · have he : parseUintCore ('0' :: c1 :: c2 :: rest2) s0 0 bitSize
            = parseUintWithBase (c2 :: rest2) s0 8 true bitSize := by
          simp [parseUintCore, hxb, hxo]
        rw [he]
        exact parseUintWithBase_le _ s0 8 true bitSize hbs1 hbs2
      by_cases hxx : lower c1 = 'x'
      · have he : parseUintCore ('0' :: c1 :: c2 :: rest2) s0 0 bitSize
            = parseUintWithBase (c2 :: rest2) s0 16 true bitSize := by
          simp [parseUintCore, hxb, hxo, hxx]
        rw [he]
        exact parseUintWithBase_le _ s0 16 true bitSize hbs1 hbs2
      · have he : parseUintCore ('0' :: c1 :: c2 :: rest2) s0 0 bitSize
            = parseUintWithBase (c1 :: c2 :: rest2) s0 8 true bitSize := by
          simp [parseUintCore, hxb, hxo, hxx]
        rw [he]
        exact parseUintWithBase_le _ s0 8 true bitSize hbs1 hbs2
    · have he : parseUintCore (c0 :: rest) s0 0 bitSize
          = parseUintWithBase (c0 :: rest) s0 10 true bitSize := by
        simp [parseUintCore, hc0]
      rw [he]
      exact parseUintWithBase_le _ s0 10 true bitSize hbs1 hbs2
  · intro h
    exact absurd h (by simp [parseUintCore, hvb, hb0])

theorem parseIntFinish_cases (neg : Bool) (un bitSize : Nat) (s0 : String) :
    ((parseIntFinish neg un bitSize s0).2 = none →
      -(((2 ^ ((if bitSize = 0 then IntSize else bitSize) - 1) : Nat) : Int))
          ≤ (parseIntFinish neg un bitSize s0).1 ∧
      (parseIntFinish neg un bitSize s0).1
          < ((2 ^ ((if bitSize = 0 then IntSize else bitSize) - 1) : Nat) : Int)) ∧
    (∀ e, (parseIntFinish neg un bitSize s0).2 = some e →
      e = rangeError "ParseInt" s0 ∧
      ((parseIntFinish neg un bitSize s0).1
          = ((2 ^ ((if bitSize = 0 then IntSize else bitSize) - 1) : Nat) : Int) - 1 ∨
       (parseIntFinish neg un bitSize s0).1
          = -(((2 ^ ((if bitSize = 0 then IntSize else bitSize) - 1) : Nat) : Int)))) := by
  simp only [parseIntFinish]
  set C : Nat := 2 ^ ((if bitSize = 0 then IntSize else bitSize) - 1) with hCdef
  have hC : 0 < C := by rw [hCdef]; positivity
  split_ifs with h1 h2 h3
  · refine ⟨fun h => absurd h (by simp), fun e he => ?_⟩
    simp only [Option.some.injEq] at he
    exact ⟨he.symm, Or.inl rfl⟩
  · refine ⟨fun h => absurd h (by simp), fun e he => ?_⟩
    simp only [Option.some.injEq] at he
    exact ⟨he.symm, Or.inr rfl⟩
  · refine ⟨fun _ => ⟨?_, ?_⟩, fun e he => absurd he (by simp)⟩
    · show -(C : Int) ≤ -(un : Int)
      have hun : un ≤ C := by
        by_contra hgt
        exact h2 ⟨h3, by omega⟩
      omega
    · show -(un : Int) < (C : Int)
      omega
  · refine ⟨fun _ => ⟨?_, ?_⟩, fun e he => absurd he (by simp)⟩
    · show -(C : Int) ≤ (un : Int)
      omega
    · show (un : Int) < (C : Int)
      have hun : un < C := by
        by_contra hge
        exact h1 ⟨h3, by omega⟩
      omega

theorem parseInt_err_val (s : String) (base bitSize : Nat) :
    (∀ e, (parseInt s base bitSize).2 = some e → e.kind ≠ NumErrorKind.errRange →
        (parseInt s base bitSize).1 = 0) ∧
    (∀ e, (parseInt s base bitSize).2 = some e → e.kind = NumErrorKind.errRange →
        ((parseInt s base bitSize).1
            = ((2 ^ ((if bitSize = 0 then IntSize else bitSize) - 1) : Nat) : Int) - 1 ∨
         (parseInt s base bitSize).1
            = -(((2 ^ ((if bitSize = 0 then IntSize else bitSize) - 1) : Nat) : Int)))) ∧
    ((parseInt s base bitSize).2 = none →
        -(((2 ^ ((if bitSize = 0 then IntSize else bitSize) - 1) : Nat) : Int))
            ≤ (parseInt s base bitSize).1 ∧
        (parseInt s base bitSize).1
            < ((2 ^ ((if bitSize = 0 then IntSize else bitSize) - 1) : Nat) : Int)) := by
  by_cases hnil : s.data = []
  · refine ⟨?_, ?_, ?_⟩
    · intro e he _
      simp [parseInt, hnil]
    · intro e he hk
      have : e = syntaxError "ParseInt" s := by
        simp [parseInt, hnil] at he
        exact he.symm
      rw [this] at hk
      exact absurd hk (by simp [syntaxError])
    · intro h
      exact absurd h (by simp [parseInt, hnil])
  · rcases hss : stripSign s.data with ⟨neg, sRest⟩
    rcases hpr : parseUintCore sRest (String.mk sRest) base bitSize with ⟨un, err⟩
    rcases err with _ | e'
    · have hunfold : parseInt s base bitSize = parseIntFinish neg un bitSize s := by
        simp [parseInt, hnil, hss, hpr]
      rw [hunfold]
      refine ⟨?_, ?_, (parseIntFinish_cases neg un bitSize s).1⟩
      · intro e he hk
        obtain ⟨herr, -⟩ := (parseIntFinish_cases neg un bitSize s).2 e he
        rw [herr] at hk
        exact absurd rfl hk
      · intro e he _
        exact ((parseIntFinish_cases neg un bitSize s).2 e he).2
    · by_cases hk' : e'.kind = NumErrorKind.errRange
      · have hunfold : parseInt s base bitSize = parseIntFinish neg un bitSize s := by
          simp [parseInt, hnil, hss, hpr, hk']
        rw [hunfold]
        refine ⟨?_, ?_, (parseIntFinish_cases neg un bitSize s).1⟩
        · intro e he hk
          obtain ⟨herr, -⟩ := (parseIntFinish_cases neg un bitSize s).2 e he
          rw [herr] at hk
          exact absurd rfl hk
        · intro e he _
          exact ((parseIntFinish_cases neg un bitSize s).2 e he).2
      · have hunfold : parseInt s base bitSize
            = (0, some (ParseError.mk "ParseInt" s e'.kind)) := by
          simp [parseInt, hnil, hss, hpr, hk']
        rw [hunfold]
        refine ⟨fun e _ _ => rfl, ?_, fun h => absurd h (by simp)⟩
        intro e he hk
        have : e = ParseError.mk "ParseInt" s e'.kind := by
          simp only [Option.some.injEq] at he
          exact he.symm
        rw [this] at hk
        exact absurd hk hk'

theorem pow_sub_one_le (bitSize : Nat) (hbs1 : bitSize ≠ 0) :
    2 ^ (bitSize - 1) ≤ 2 ^ bitSize - 1 := by
  have hbe : bitSize - 1 + 1 = bitSize := by omega
  have hdouble : 2 ^ bitSize = 2 * 2 ^ (bitSize - 1) := by
    conv_lhs => rw [← hbe]
    rw [pow_succ']
  have hpos : 0 < 2 ^ (bitSize - 1) := by positivity
  omega

theorem parseInt_decimal (c0 : Char) (rest : List Char) (bitSize : Nat)
    (hbs1 : bitSize ≠ 0) (hbs2 : bitSize ≤ 64)
    (hd : ∀ c ∈ c0 :: rest, c ∈ decimalDigits) (h0 : c0 ≠ '0')
    (hlt : digitsVal 10 0 (c0 :: rest) < 2 ^ (bitSize - 1)) :
    parseInt (String.mk (c0 :: rest)) 0 bitSize
      = (((digitsVal 10 0 (c0 :: rest) : Nat) : Int), none) := by
  have hsign : stripSign (c0 :: rest) = (false, c0 :: rest) := by
    have h1 : c0 ≠ '+' ∧ c0 ≠ '-' := by
      have hc := hd c0 (by simp)
      fin_cases hc <;> exact ⟨by decide, by decide⟩
    simp [stripSign, h1.1, h1.2]
  have hle : digitsVal 10 0 (c0 :: rest) ≤ 2 ^ bitSize - 1 :=
    le_trans (Nat.le_of_lt hlt) (pow_sub_one_le bitSize hbs1)
  have hcore : parseUintCore (c0 :: rest) (String.mk (c0 :: rest)) 0 bitSize
      = (digitsVal 10 0 (c0 :: rest), none) := by
    rw [parseUintCore_decimal c0 rest (String.mk (c0 :: rest)) bitSize hbs1 hbs2 hd h0,
      if_pos hle]
  have hunfold : parseInt (String.mk (c0 :: rest)) 0 bitSize
      = parseIntFinish false (digitsVal 10 0 (c0 :: rest)) bitSize (String.mk (c0 :: rest)) := by
    simp [parseInt, hsign, hcore]
  rw [hunfold]
  simp only [parseIntFinish, if_neg hbs1]
  rw [if_neg (show ¬(¬false = true ∧ 2 ^ (bitSize - 1) ≤ digitsVal 10 0 (c0 :: rest))
        from fun hcon => absurd hcon.2 (by omega)),
    if_neg (show ¬(false = true ∧ 2 ^ (bitSize - 1) < digitsVal 10 0 (c0 :: rest))
        from fun hcon => by simp at hcon)]
  simp

/-- C4 counterexample: `COUNT=9223372036854775808` (that is 2^63) is
invalid for the 64-bit `int` fetch, yet `GetInt` returns the saturated
boundary value 9223372036854775807 — not 0 — together with
`present = true` and the range `ParseError`.  This refutes the claim
that the value returned for an invalid present value is always zero. -/
theorem getInt_invalid_nonzero_counterexample :
    V2.GetInt "COUNT" [("COUNT", "9223372036854775808")]
      = (9223372036854775807, true,
         some (rangeError "ParseInt" "9223372036854775808"), []) ∧
    (9223372036854775807 : Int) ≠ 0 := by
  constructor
  · decide
  · decide

/-- C4 amended: for every present value that fails to parse, the
Get-style fetch returns `present = true` and the `ParseError`, and the
key is removed; the returned value is the one `strconv` reports
alongside the error — 0 when the error is not a range error (malformed
text, as in the `COUNT=notanumber` scenario), and the saturated boundary
of the target range (`2^(bits-1) - 1` or `-2^(bits-1)`) when the text is
a number out of range. -/
theorem fetch_invalid_semantics :
    (∀ (α : Type) (zero : α) (parse : String → α × Option ParseError)
        (key v : String) (env : Env) (val : α) (e : ParseError),
        lookupEnv env key = some v → parse v = (val, some e) →
        getGo zero parse key env = (val, true, some e, unsetenv env key) ∧
        lookupEnv (unsetenv env key) key = none) ∧
    (∀ (s : String) (bitSize : Nat) (e : ParseError),
        (parseInt s 0 bitSize).2 = some e → e.kind ≠ NumErrorKind.errRange →
        (parseInt s 0 bitSize).1 = 0) ∧
    (∀ (s : String) (bitSize : Nat) (e : ParseError),
        (parseInt s 0 bitSize).2 = some e → e.kind = NumErrorKind.errRange →
        ((parseInt s 0 bitSize).1
            = ((2 ^ ((if bitSize = 0 then IntSize else bitSize) - 1) : Nat) : Int) - 1 ∨
         (parseInt s 0 bitSize).1
            = -(((2 ^ ((if bitSize = 0 then IntSize else bitSize) - 1) : Nat) : Int)))) := by
  refine ⟨?_, ?_, ?_⟩
  · intro α zero parse key v env val e hl hp
    refine ⟨?_, lookupEnv_unsetenv_self env key⟩
    rw [getGo_present zero parse key v env hl, hp]
  · intro s bitSize e
    exact (parseInt_err_val s 0 bitSize).1 e
  · intro s bitSize e
    exact (parseInt_err_val s 0 bitSize).2.1 e

theorem fetch_invalid_semantics_witness :
    V2.GetInt64 "COUNT" [("COUNT", "notanumber")]
      = (0, true, some (ParseError.mk "ParseInt" "notanumber" NumErrorKind.errSyn), []) := by
  exact (fetch_invalid_semantics.1 Int 0 (fun s => parseInt s 0 64) "COUNT" "notanumber"
    [("COUNT", "notanumber")] 0 (ParseError.mk "ParseInt" "notanumber" NumErrorKind.errSyn)
    (by decide) (by decide)).1

/-- C6 counterexample: the value `010` is a digit string carrying no
`0x`/`0o`/`0b` radix prefix and its base-10 reading is 10, yet the final
revision `Int64` accessor parses it as legacy octal and stores 8 — so
"base 10 otherwise" is false for strings with a bare leading zero. -/
theorem int64_leading_zero_octal_counterexample :
    V3.Int64 0 "N" [("N", "010")] = (8, none, []) ∧
    digitsVal 10 0 ("010".data) = 10 ∧
    (8 : Int) ≠ 10 := by
  refine ⟨by decide, by decide, by decide⟩

/-- C6 amended: the integer accessors select the radix from an explicit
`0x`/`0o`/`0b` prefix when one is present, use base 10 otherwise —
except that a bare leading `0` selects legacy base 8 — range-check the
result against the declared bit width (the signed range for the signed
accessors), saturating overflow into a range `ParseError`, and reject a
character invalid for the selected base with a syntax `ParseError`.  In
particular a digit string with no radix prefix and no leading zero
parses to exactly its base-10 reading when that value is in range. -/
theorem integer_base_selection :
    (∀ (c0 : Char) (rest : List Char) (s0 : String) (bitSize : Nat),
        bitSize ≠ 0 → bitSize ≤ 64 →
        (∀ c ∈ c0 :: rest, c ∈ decimalDigits) → c0 ≠ '0' →
        parseUintCore (c0 :: rest) s0 0 bitSize
          = if digitsVal 10 0 (c0 :: rest) ≤ 2 ^ bitSize - 1
            then (digitsVal 10 0 (c0 :: rest), none)
            else (2 ^ bitSize - 1, some (rangeError "ParseUint" s0))) ∧
    (∀ (rest : List Char) (s0 : String) (bitSize : Nat),
        bitSize ≠ 0 → bitSize ≤ 64 → (∀ c ∈ rest, c ∈ octalDigits) →
        parseUintCore ('0' :: rest) s0 0 bitSize
          = if digitsVal 8 0 rest ≤ 2 ^ bitSize - 1
            then (digitsVal 8 0 rest, none)
            else (2 ^ bitSize - 1, some (rangeError "ParseUint" s0))) ∧
    (∀ (cx d1 : Char) (rest : List Char) (s0 : String) (bitSize : Nat),
        bitSize ≠ 0 → bitSize ≤ 64 → lower cx = 'x' →
        (∀ c ∈ d1 :: rest, c ∈ hexDigits) →
        parseUintCore ('0' :: cx :: d1 :: rest) s0 0 bitSize
          = if digitsVal 16 0 (d1 :: rest) ≤ 2 ^ bitSize - 1
            then (digitsVal 16 0 (d1 :: rest), none)
            else (2 ^ bitSize - 1, some (rangeError "ParseUint" s0))) ∧
    (∀ (co d1 : Char) (rest : List Char) (s0 : String) (bitSize : Nat),
        bitSize ≠ 0 → bitSize ≤ 64 → lower co = 'o' →
        (∀ c ∈ d1 :: rest, c ∈ octalDigits) →
        parseUintCore ('0' :: co :: d1 :: rest) s0 0 bitSize
          = if digitsVal 8 0 (d1 :: rest) ≤ 2 ^ bitSize - 1
            then (digitsVal 8 0 (d1 :: rest), none)
            else (2 ^ bitSize - 1, some (rangeError "ParseUint" s0))) ∧
    (∀ (cb d1 : Char) (rest : List Char) (s0 : String) (bitSize : Nat),
        bitSize ≠ 0 → bitSize ≤ 64 → lower cb = 'b' →
        (∀ c ∈ d1 :: rest, c ∈ binaryDigits) →
        parseUintCore ('0' :: cb :: d1 :: rest) s0 0 bitSize
          = if digitsVal 2 0 (d1 :: rest) ≤ 2 ^ bitSize - 1
            then (digitsVal 2 0 (d1 :: rest), none)
            else (2 ^ bitSize - 1, some (rangeError "ParseUint" s0))) ∧
    (∀ (s : List Char) (s0 : String) (base bitSize : Nat),
        bitSize ≠ 0 → bitSize ≤ 64 →
        (parseUintCore s s0 base bitSize).2 = none →
        (parseUintCore s s0 base bitSize).1 ≤ 2 ^ bitSize - 1) ∧
    (∀ (s : String) (bitSize : Nat),
        (parseInt s 0 bitSize).2 = none →
        -(((2 ^ ((if bitSize = 0 then IntSize else bitSize) - 1) : Nat) : Int))
            ≤ (parseInt s 0 bitSize).1 ∧
        (parseInt s 0 bitSize).1
            < ((2 ^ ((if bitSize = 0 then IntSize else bitSize) - 1) : Nat) : Int)) ∧
    (∀ (s : List Char) (s0 : String) (base : Nat) (base0 : Bool) (bitSize : Nat),
        (∃ c ∈ s, badDigit base base0 c) →
        ((parseUintWithBase s s0 base base0 bitSize).2).isSome = true) ∧
    (∀ (c0 : Char) (rest : List Char) (bitSize : Nat),
        bitSize ≠ 0 → bitSize ≤ 64 →
        (∀ c ∈ c0 :: rest, c ∈ decimalDigits) → c0 ≠ '0' →
        digitsVal 10 0 (c0 :: rest) < 2 ^ (bitSize - 1) →
        parseInt (String.mk (c0 :: rest)) 0 bitSize
          = (((digitsVal 10 0 (c0 :: rest) : Nat) : Int), none)) := by
  refine ⟨?_, ?_, ?_, ?_, ?_, ?_, ?_, ?_, ?_⟩
  · intro c0 rest s0 bitSize h1 h2 h3 h4
    exact parseUintCore_decimal c0 rest s0 bitSize h1 h2 h3 h4
  · intro rest s0 bitSize h1 h2 h3
    exact parseUintCore_octal rest s0 bitSize h1 h2 h3
  · intro cx d1 rest s0 bitSize h1 h2 h3 h4
    exact parseUintCore_hexPrefix cx d1 rest s0 bitSize h1 h2 h3 h4
  · intro co d1 rest s0 bitSize h1 h2 h3 h4
    exact parseUintCore_octalPrefix co d1 rest s0 bitSize h1 h2 h3 h4
  · intro cb d1 rest s0 bitSize h1 h2 h3 h4
    exact parseUintCore_binaryPrefix cb d1 rest s0 bitSize h1 h2 h3 h4
  · intro s s0 base bitSize h1 h2
    exact parseUintCore_le s s0 base bitSize h1 h2
  · intro s bitSize
    exact (parseInt_err_val s 0 bitSize).2.2
  · intro s s0 base base0 bitSize hbad
    exact parseUintWithBase_bad s s0 base base0 bitSize hbad
  · intro c0 rest bitSize h1 h2 h3 h4 h5
    exact parseInt_decimal c0 rest bitSize h1 h2 h3 h4 h5

theorem integer_base_selection_witness :
    parseUintCore ['8', '0', '8', '0'] "8080" 0 64 = (8080, none) ∧
    parseUintCore ['0', 'x', '1', 'F'] "0x1F" 0 64 = (31, none) ∧
    parseInt (String.mk ['8', '0', '8', '0']) 0 64 = (8080, none) := by
  refine ⟨?_, ?_, ?_⟩
  · have h := integer_base_selection.1 '8' ['0', '8', '0'] "8080" 64 (by decide) (by decide)
      (by decide) (by decide)
    rw [h]
    decide
  · have h := integer_base_selection.2.2.1 'x' '1' ['F'] "0x1F" 64 (by decide) (by decide)
      (by decide) (by decide)
    rw [h]
    decide
  · have h := integer_base_selection.2.2.2.2.2.2.2.2 '8' ['0', '8', '0'] 64 (by decide)
      (by decide) (by decide) (by decide) (by decide)
    rw [h]
    decide
